import Mathlib

/-!
# Shallow embedding of the snake game core (app.component.ts)

This file embeds the simulation core of the snake game — the wrap-around
coordinate domain, grid positions, directions, the snake state machine, and
the cheese factory — as executable Lean definitions translated from the
TypeScript source, and proves the claims of the specification about them.

Modelling conventions:
* TypeScript `number` values that hold grid coordinates and food counters are
  embedded as `Int` (all arithmetic performed on them in the source is integer
  arithmetic on integer inputs).
* A TypeScript `Position` stores a reference to its `PositionContext`; here the
  context is passed explicitly to every operation that needs it.
* The process-wide random source is embedded as explicit parameters: the index
  drawn into the candidate list, and the food-value draw.
* Reading past the end of a JavaScript array yields `undefined` and the
  subsequent member access throws; list reads are embedded as `Option`-valued
  lookups, with `none` standing for that failure.
-/

namespace Snake2Proof

/-- One axis of the `PositionContext`: the half-open logical domain
`[lo, hi)`.  (The pixel `range` and derived `cell` width of the source are
used only by the rendering layer and are not part of the simulation core
embedded here.) -/
structure AxisDomain where
  lo : Int
  hi : Int
deriving DecidableEq, Repr

/-- Source `widths.domain`: `domain[1] - domain[0]`. -/
def AxisDomain.width (a : AxisDomain) : Int := a.hi - a.lo

/-- First loop of `PositionContext.applyDomainVector`:
`while (val < context.domain[0]) { val += context.widths.domain; }`.
The source loop diverges when the width is non-positive (a configuration
error per the spec); the `0 < w` guard makes that non-terminating case
return the input unchanged, and no claim depends on it. -/
def domainLoopLow (lo w val : Int) : Int :=
  if 0 < w ∧ val < lo then domainLoopLow lo w (val + w) else val
termination_by (lo - val).toNat
decreasing_by omega

/-- Second loop of `PositionContext.applyDomainVector`:
`while (val >= context.domain[1]) { val = context.domain[0] + (val - context.domain[1]); }`.
Again guarded by `lo < hi` so that the (diverging) non-positive-width case
returns the input unchanged. -/
def domainLoopHigh (lo hi val : Int) : Int :=
  if lo < hi ∧ hi ≤ val then domainLoopHigh lo hi (lo + (val - hi)) else val
termination_by (val - lo).toNat
decreasing_by omega

/-- Source `PositionContext.applyDomainVector`: fold `val` into the half-open
domain `[lo, hi)` by the two loops above. -/
def applyDomainVector (a : AxisDomain) (val : Int) : Int :=
  domainLoopHigh a.lo a.hi (domainLoopLow a.lo a.width val)

/-- The `PositionContext`: one `AxisDomain` per axis. -/
structure PositionContext where
  x : AxisDomain
  y : AxisDomain
deriving DecidableEq, Repr

/-- Source `PositionContext.applyDomain`: apply the domain normalization to both
coordinates. -/
def PositionContext.applyDomain (c : PositionContext) (x y : Int) : Int × Int :=
  (applyDomainVector c.x x, applyDomainVector c.y y)

/-- A grid `Position`: the stored, already-normalized coordinates. -/
structure Position where
  x : Int
  y : Int
deriving DecidableEq, Repr

/-- The `Position` constructor: normalize the raw coordinates through
`applyDomain` before storing them. -/
def Position.create (c : PositionContext) (x y : Int) : Position :=
  let p := c.applyDomain x y
  ⟨p.1, p.2⟩

/-- Source `Position.createModified`: offset then re-normalize (a fresh object in
the source; a fresh value here). -/
def Position.createModified (p : Position) (c : PositionContext) (dx dy : Int) : Position :=
  Position.create c (p.x + dx) (p.y + dy)

/-- Source `Position.equals` applied to another `Position`: coordinate equality. -/
def Position.equals (p other : Position) : Bool :=
  other.x == p.x && other.y == p.y

/-- Source `Position.equals` applied to a raw `[x, y]` pair:
`other[0] == this.x && other[1] == this.y`. -/
def Position.equalsPair (p : Position) (other : Int × Int) : Bool :=
  other.1 == p.x && other.2 == p.y

/-- A `Direction`: the `(dx, dy)` unit-vector pair. -/
structure Direction where
  dx : Int
  dy : Int
deriving DecidableEq, Repr

/-- The four shared direction instances of the component. -/
def Direction.up : Direction := ⟨0, -1⟩

def Direction.down : Direction := ⟨0, 1⟩

def Direction.left : Direction := ⟨-1, 0⟩

def Direction.right : Direction := ⟨1, 0⟩

/-- Source `Direction.applyTo`: `position.createModified(dx, dy)`. -/
def Direction.applyTo (d : Direction) (c : PositionContext) (p : Position) : Position :=
  p.createModified c d.dx d.dy

/-- Source `Direction.isTurn`:
`!(dx == prev.dx || dx == -prev.dx) && !(dy == prev.dy || dy == -prev.dy)`. -/
def Direction.isTurn (d previous : Direction) : Bool :=
  !(d.dx == previous.dx || d.dx == -previous.dx) &&
    !(d.dy == previous.dy || d.dy == -previous.dy)

/-- A `Cheese`: a position and a food value. -/
structure Cheese where
  position : Position
  food : Int
deriving DecidableEq, Repr

/-- The `Snake` state: segment list (head first), committed direction,
queued `nextDirection` (the source `null` is `none`), food counter and the
dead flag.  The `died$` subject of the source is a notification channel with no
bearing on the state transitions and has no counterpart here. -/
structure Snake where
  segments : List Position
  direction : Direction
  nextDirection : Option Direction
  food : Int
  dead : Bool
deriving DecidableEq, Repr

/-- The `Snake` constructor:
`segments = [start]`, committed direction, no queued direction, the given
initial food, alive. -/
def Snake.create (start : Position) (initialFood : Int) (initialDirection : Direction) : Snake :=
  ⟨[start], initialDirection, none, initialFood, false⟩

/-- The `direction` setter: store the new direction in the pending slot. -/
def Snake.setDirection (s : Snake) (d : Direction) : Snake :=
  { s with nextDirection := some d }

/-- Source `Snake.eat`: `food += cheese.food`. -/
def Snake.eat (s : Snake) (c : Cheese) : Snake :=
  { s with food := s.food + c.food }

/-- Source `Snake.kill`: set the dead flag (and fire `died$`, not modelled). -/
def Snake.kill (s : Snake) : Snake :=
  { s with dead := true }

/-- Source `Snake.tick`: commit a queued direction, prepend the new head, then
either consume one unit of food or drop the tail.  The source reads
`segments[0]` unconditionally, so on an empty segment list it would fault;
that list is never empty (proved below as the claim C10 invariant), and the
empty case is embedded as the identity. -/
def Snake.tick (s : Snake) (c : PositionContext) : Snake :=
  let d := s.nextDirection.getD s.direction
  match s.segments with
  | [] => s
  | hd :: _ =>
    let newhead := d.applyTo c hd
    let segs := newhead :: s.segments
    if 0 < s.food then
      { s with direction := d, nextDirection := none, segments := segs, food := s.food - 1 }
    else
      { s with direction := d, nextDirection := none, segments := segs.dropLast }

/-- Iterate `n` consecutive `tick()` calls. -/
def Snake.tickN (s : Snake) (c : PositionContext) : Nat → Snake
  | 0 => s
  | n + 1 => (s.tick c).tickN c n

/-- The self-collision test of the orchestration,
`segments.some(_ => _ !== head && _.equals(head))`.  After construction and
after every `tick()` the elements of `segments` are pairwise distinct
objects and `head` is reference-equal to exactly the element at index 0
(each `tick` unshifts a freshly constructed `Position`), so the reference
test `_ !== head` holds exactly for the entries after index 0. -/
def selfCollision (s : Snake) : Bool :=
  match s.segments with
  | [] => false
  | hd :: tl => tl.any (fun p => p.equals hd)

/-- One step of `AppComponent.tick`: advance the snake, then kill it when a
non-head segment equals the head.  The trailing cheese branch of the source
updates only the food counter and the cheese object, never the dead flag or
the segment list of this step; the claims quantify over all snake states, so
states reached with arbitrary food counters are covered. -/
def appTick (s : Snake) (c : PositionContext) : Snake :=
  let t := s.tick c
  if selfCollision t then t.kill else t

/-- Iterate `n` consecutive orchestration steps. -/
def appTickN (s : Snake) (c : PositionContext) : Nat → Snake
  | 0 => s
  | n + 1 => appTickN (appTick s c) c n

/-- The ascending list of integers in `[lo, hi)` traversed by each
`for (let v = domain[0]; v < domain[1]; v++)` loop. -/
def intRange (lo hi : Int) : List Int :=
  (List.range (hi - lo).toNat).map (fun (i : Nat) => lo + (i : Int))

/-- The cell enumeration of `CheeseFactory.generatePosition`: all `[x, y]`
pairs, x-outer, y-inner. -/
def allCells (c : PositionContext) : List (Int × Int) :=
  (intRange c.x.lo c.x.hi).flatMap (fun x => (intRange c.y.lo c.y.hi).map (fun y => (x, y)))

/-- The `possible` list of `CheeseFactory.generatePosition`: the cells kept
by `snake.segments.every(_ => !_.equals(pos))`. -/
def possibleCells (c : PositionContext) (s : Snake) : List (Int × Int) :=
  (allCells c).filter (fun pr => s.segments.all (fun seg => !(seg.equalsPair pr)))

/-- Source `CheeseFactory.generatePosition` with the random draw made explicit:
`choice` embeds `Math.floor(Math.random() * possible.length)`.  Reading
`possible[choice]` past the end of the list (the only case being the empty
list, where `choice = 0`) yields `undefined` and the `new Position(...)`
call throws; that outcome is `none`. -/
def CheeseFactory.generatePosition (c : PositionContext) (s : Snake) (choice : Nat) :
    Option Position :=
  (possibleCells c s).get? choice |>.map (fun pr => Position.create c pr.1 pr.2)

/-- Source `CheeseFactory.createCheese` with both random draws explicit: `foodDraw`
embeds `Math.floor(Math.random() * (food[1] - food[0]))`, so the food value
is `food[0] + foodDraw`. -/
def CheeseFactory.createCheese (c : PositionContext) (foodRange : Int × Int) (s : Snake)
    (choice : Nat) (foodDraw : Int) : Option Cheese :=
  (CheeseFactory.generatePosition c s choice).map (fun p => ⟨p, foodRange.1 + foodDraw⟩)

/-! ## Domain normalization (claim C2) -/

theorem domainLoopLow_ge (lo w : Int) (hw : 0 < w) (val : Int) :
    lo ≤ domainLoopLow lo w val := by
  induction val using domainLoopLow.induct lo w with
  | case1 v h ih =>
    rw [domainLoopLow, if_pos h]
    exact ih
  | case2 v h =>
    rw [domainLoopLow, if_neg h]
    have : ¬ v < lo := fun hv => h ⟨hw, hv⟩
    omega

theorem domainLoopLow_lt (lo w val : Int) (hv : val < lo + w) :
    domainLoopLow lo w val < lo + w := by
  induction val using domainLoopLow.induct lo w with
  | case1 v h ih =>
    rw [domainLoopLow, if_pos h]
    exact ih (by omega)
  | case2 v h =>
    rw [domainLoopLow, if_neg h]
    exact hv

theorem domainLoopLow_eq_self (lo w val : Int) (hv : lo ≤ val) :
    domainLoopLow lo w val = val := by
  rw [domainLoopLow, if_neg]
  rintro ⟨-, hlt⟩
  omega

theorem domainLoopHigh_lt (lo hi : Int) (hlo : lo < hi) (val : Int) :
    domainLoopHigh lo hi val < hi := by
  induction val using domainLoopHigh.induct lo hi with
  | case1 v h ih =>
    rw [domainLoopHigh, if_pos h]
    exact ih
  | case2 v h =>
    rw [domainLoopHigh, if_neg h]
    have : ¬ hi ≤ v := fun hv => h ⟨hlo, hv⟩
    omega

theorem domainLoopHigh_ge (lo hi val : Int) (hv : lo ≤ val) :
    lo ≤ domainLoopHigh lo hi val := by
  induction val using domainLoopHigh.induct lo hi with
  | case1 v h ih =>
    rw [domainLoopHigh, if_pos h]
    exact ih (by omega)
  | case2 v h =>
    rw [domainLoopHigh, if_neg h]
    exact hv

theorem domainLoopHigh_eq_self (lo hi val : Int) (hv : val < hi) :
    domainLoopHigh lo hi val = val := by
  rw [domainLoopHigh, if_neg]
  rintro ⟨-, hge⟩
  omega

theorem applyDomainVector_eq_self (a : AxisDomain) (val : Int) (h1 : a.lo ≤ val)
    (h2 : val < a.hi) : applyDomainVector a val = val := by
  rw [applyDomainVector, domainLoopLow_eq_self _ _ _ h1, domainLoopHigh_eq_self _ _ _ h2]

/-- C2: with positive domain width, `applyDomainVector` lands every integer
in `[domain.lo, domain.hi)`, leaves values already inside unchanged, and is
therefore idempotent. -/
theorem applyDomainVector_normalizes (a : AxisDomain) (hw : 0 < a.width) (val : Int) :
    (a.lo ≤ applyDomainVector a val ∧ applyDomainVector a val < a.hi) ∧
    (a.lo ≤ val → val < a.hi → applyDomainVector a val = val) ∧
    applyDomainVector a (applyDomainVector a val) = applyDomainVector a val := by
  have hlo : a.lo < a.hi := by
    have := hw
    unfold AxisDomain.width at this
    omega
  have hmem : a.lo ≤ applyDomainVector a val ∧ applyDomainVector a val < a.hi := by
    constructor
    · exact domainLoopHigh_ge _ _ _ (domainLoopLow_ge _ _ (by unfold AxisDomain.width; omega) _)
    · exact domainLoopHigh_lt _ _ hlo _
  refine ⟨hmem, fun h1 h2 => applyDomainVector_eq_self a val h1 h2, ?_⟩
  exact applyDomainVector_eq_self a _ hmem.1 hmem.2

/-- Witness for C2: the 20-cell axis `[0, 20)` of the session, applied at
the out-of-range value `-3` (the result lands in range) and checked
unchanged at the in-range value `5`. -/
theorem applyDomainVector_normalizes_witness :
    (0 : Int) < AxisDomain.width ⟨0, 20⟩ ∧
    ((AxisDomain.lo ⟨0, 20⟩ ≤ applyDomainVector ⟨0, 20⟩ (-3) ∧
        applyDomainVector ⟨0, 20⟩ (-3) < AxisDomain.hi ⟨0, 20⟩) ∧
      (AxisDomain.lo ⟨0, 20⟩ ≤ (-3 : Int) → (-3 : Int) < AxisDomain.hi ⟨0, 20⟩ →
        applyDomainVector ⟨0, 20⟩ (-3) = -3) ∧
      applyDomainVector ⟨0, 20⟩ (applyDomainVector ⟨0, 20⟩ (-3)) =
        applyDomainVector ⟨0, 20⟩ (-3)) ∧
    applyDomainVector ⟨0, 20⟩ 5 = 5 :=
  ⟨by decide, applyDomainVector_normalizes ⟨0, 20⟩ (by decide) (-3),
    applyDomainVector_eq_self ⟨0, 20⟩ 5 (by decide) (by decide)⟩

/-! ## Turn legality (claim C6) -/

/-- The list of the four direction constants created by the component. -/
def unitDirections : List Direction :=
  [Direction.up, Direction.down, Direction.left, Direction.right]

/-- C6: over the four unit directions, `isTurn` is `false` exactly on the
same and on the opposite direction (hence `true` exactly on the two
perpendicular ones); in particular, against `previous = right`, `left` and
`right` are not turns while `up` and `down` are. -/
theorem isTurn_iff_not_same_axis (d p : Direction) (hd : d ∈ unitDirections)
    (hp : p ∈ unitDirections) :
    (d.isTurn p = true ↔ (d ≠ p ∧ d ≠ ⟨-p.dx, -p.dy⟩)) ∧
    Direction.left.isTurn Direction.right = false ∧
    Direction.right.isTurn Direction.right = false ∧
    Direction.up.isTurn Direction.right = true ∧
    Direction.down.isTurn Direction.right = true := by
  refine ⟨?_, by decide, by decide, by decide, by decide⟩
  fin_cases hd <;> fin_cases hp <;> decide

/-- Witness for C6 at `d = up`, `previous = right`. -/
theorem isTurn_iff_not_same_axis_witness :
    Direction.up ∈ unitDirections ∧ Direction.right ∈ unitDirections ∧
    ((Direction.up.isTurn Direction.right = true ↔
        (Direction.up ≠ Direction.right ∧
          Direction.up ≠ ⟨-Direction.right.dx, -Direction.right.dy⟩)) ∧
      Direction.left.isTurn Direction.right = false ∧
      Direction.right.isTurn Direction.right = false ∧
      Direction.up.isTurn Direction.right = true ∧
      Direction.down.isTurn Direction.right = true) :=
  ⟨by decide, by decide,
    isTurn_iff_not_same_axis Direction.up Direction.right (by decide) (by decide)⟩

/-! ## Unfolding equations for `Snake.tick` -/

theorem Snake.tick_eq_of_pos (s : Snake) (c : PositionContext) (hd : Position)
    (rest : List Position) (hseg : s.segments = hd :: rest) (hf : 0 < s.food) :
    s.tick c =
      { s with direction := s.nextDirection.getD s.direction, nextDirection := none,
               segments := (s.nextDirection.getD s.direction).applyTo c hd :: s.segments,
               food := s.food - 1 } := by
  unfold Snake.tick
  rw [hseg]
  simp [hf, hseg]

theorem Snake.tick_eq_of_nonpos (s : Snake) (c : PositionContext) (hd : Position)
    (rest : List Position) (hseg : s.segments = hd :: rest) (hf : ¬ 0 < s.food) :
    s.tick c =
      { s with direction := s.nextDirection.getD s.direction, nextDirection := none,
               segments :=
                 ((s.nextDirection.getD s.direction).applyTo c hd :: s.segments).dropLast } := by
  unfold Snake.tick
  rw [hseg]
  simp [hf, hseg]

theorem Snake.tick_dead (s : Snake) (c : PositionContext) : (s.tick c).dead = s.dead := by
  rcases hseg : s.segments with - | ⟨hd, rest⟩
  · unfold Snake.tick
    rw [hseg]
  · by_cases hf : 0 < s.food
    · rw [s.tick_eq_of_pos c hd rest hseg hf]
    · rw [s.tick_eq_of_nonpos c hd rest hseg hf]

theorem Snake.tick_segments_ne_nil (s : Snake) (c : PositionContext)
    (h : s.segments ≠ []) : (s.tick c).segments ≠ [] := by
  rcases hseg : s.segments with - | ⟨hd, rest⟩
  · exact absurd hseg h
  · by_cases hf : 0 < s.food
    · rw [s.tick_eq_of_pos c hd rest hseg hf]
      simp
    · rw [s.tick_eq_of_nonpos c hd rest hseg hf]
      simp [hseg]

theorem Snake.tick_length_of_pos (s : Snake) (c : PositionContext) (h : s.segments ≠ [])
    (hf : 0 < s.food) :
    (s.tick c).segments.length = s.segments.length + 1 ∧ (s.tick c).food = s.food - 1 := by
  rcases hseg : s.segments with - | ⟨hd, rest⟩
  · exact absurd hseg h
  · rw [s.tick_eq_of_pos c hd rest hseg hf]
    simp [hseg]

theorem Snake.tick_length_of_nonpos (s : Snake) (c : PositionContext) (h : s.segments ≠ [])
    (hf : ¬ 0 < s.food) :
    (s.tick c).segments.length = s.segments.length ∧ (s.tick c).food = s.food := by
  rcases hseg : s.segments with - | ⟨hd, rest⟩
  · exact absurd hseg h
  · rw [s.tick_eq_of_nonpos c hd rest hseg hf]
    simp [hseg]

/-! ## Claim C1: the three steps of one `tick()` -/

/-- C1: on an alive snake, `tick()` commits the queued direction (if any)
and clears the queue, prepends the new head — the committed direction
applied to the old head — and then either decrements a positive food
counter without removing a segment (count grows by one) or removes the last
segment (count unchanged). -/
theorem tick_performs_steps (c : PositionContext) (s : Snake) (hd : Position)
    (rest : List Position) (halive : s.dead = false) (hseg : s.segments = hd :: rest) :
    (s.tick c).direction = s.nextDirection.getD s.direction ∧
    (s.tick c).nextDirection = none ∧
    (s.tick c).segments =
      (s.nextDirection.getD s.direction).applyTo c hd ::
        (if 0 < s.food then s.segments else s.segments.dropLast) ∧
    (0 < s.food →
      (s.tick c).food = s.food - 1 ∧ (s.tick c).segments.length = s.segments.length + 1) ∧
    (¬ 0 < s.food →
      (s.tick c).food = s.food ∧ (s.tick c).segments.length = s.segments.length) := by
  by_cases hf : 0 < s.food
  · rw [s.tick_eq_of_pos c hd rest hseg hf]
    simp [hf]
  · rw [s.tick_eq_of_nonpos c hd rest hseg hf]
    simp [hf, hseg]

/-- Witness for C1: an alive two-food snake at `(5, 5)` heading right with
`up` queued, in the 20×20 session context. -/
theorem tick_performs_steps_witness :
    (Snake.mk [⟨5, 5⟩] Direction.right (some Direction.up) 2 false).dead = false ∧
    (Snake.mk [⟨5, 5⟩] Direction.right (some Direction.up) 2 false).segments =
      ⟨5, 5⟩ :: [] ∧
    ((Snake.tick (Snake.mk [⟨5, 5⟩] Direction.right (some Direction.up) 2 false)
          ⟨⟨0, 20⟩, ⟨0, 20⟩⟩).direction =
        (Option.getD (some Direction.up) Direction.right) ∧
      (Snake.tick (Snake.mk [⟨5, 5⟩] Direction.right (some Direction.up) 2 false)
          ⟨⟨0, 20⟩, ⟨0, 20⟩⟩).nextDirection = none ∧
      (Snake.tick (Snake.mk [⟨5, 5⟩] Direction.right (some Direction.up) 2 false)
          ⟨⟨0, 20⟩, ⟨0, 20⟩⟩).segments =
        (Option.getD (some Direction.up) Direction.right).applyTo ⟨⟨0, 20⟩, ⟨0, 20⟩⟩ ⟨5, 5⟩ ::
          (if 0 < (Snake.mk [⟨5, 5⟩] Direction.right (some Direction.up) 2 false).food then
              (Snake.mk [⟨5, 5⟩] Direction.right (some Direction.up) 2 false).segments
            else
              (Snake.mk [⟨5, 5⟩] Direction.right (some Direction.up) 2
                    false).segments.dropLast) ∧
      (0 < (Snake.mk [⟨5, 5⟩] Direction.right (some Direction.up) 2 false).food →
        (Snake.tick (Snake.mk [⟨5, 5⟩] Direction.right (some Direction.up) 2 false)
              ⟨⟨0, 20⟩, ⟨0, 20⟩⟩).food =
            (Snake.mk [⟨5, 5⟩] Direction.right (some Direction.up) 2 false).food - 1 ∧
          (Snake.tick (Snake.mk [⟨5, 5⟩] Direction.right (some Direction.up) 2 false)
                ⟨⟨0, 20⟩, ⟨0, 20⟩⟩).segments.length =
            (Snake.mk [⟨5, 5⟩] Direction.right (some Direction.up) 2
                  false).segments.length + 1) ∧
      (¬ 0 < (Snake.mk [⟨5, 5⟩] Direction.right (some Direction.up) 2 false).food →
        (Snake.tick (Snake.mk [⟨5, 5⟩] Direction.right (some Direction.up) 2 false)
              ⟨⟨0, 20⟩, ⟨0, 20⟩⟩).food =
            (Snake.mk [⟨5, 5⟩] Direction.right (some Direction.up) 2 false).food ∧
          (Snake.tick (Snake.mk [⟨5, 5⟩] Direction.right (some Direction.up) 2 false)
                ⟨⟨0, 20⟩, ⟨0, 20⟩⟩).segments.length =
            (Snake.mk [⟨5, 5⟩] Direction.right (some Direction.up) 2
                  false).segments.length)) :=
  ⟨rfl, rfl,
    tick_performs_steps ⟨⟨0, 20⟩, ⟨0, 20⟩⟩
      (Snake.mk [⟨5, 5⟩] Direction.right (some Direction.up) 2 false) ⟨5, 5⟩ [] rfl rfl⟩

/-! ## Iterated ticks -/

theorem Position.create_eq_self (c : PositionContext) (x y : Int) (hx1 : c.x.lo ≤ x)
    (hx2 : x < c.x.hi) (hy1 : c.y.lo ≤ y) (hy2 : y < c.y.hi) :
    Position.create c x y = ⟨x, y⟩ := by
  unfold Position.create PositionContext.applyDomain
  simp [applyDomainVector_eq_self _ _ hx1 hx2, applyDomainVector_eq_self _ _ hy1 hy2]

theorem Snake.tickN_succ_back (s : Snake) (c : PositionContext) (n : Nat) :
    s.tickN c (n + 1) = (s.tickN c n).tick c := by
  induction n generalizing s with
  | zero => rfl
  | succ n ih =>
    have h1 : s.tickN c (n + 1 + 1) = (s.tick c).tickN c (n + 1) := rfl
    rw [h1, ih]
    rfl

/-- Joint evolution of the food counter and the segment count under `n`
ticks, for a snake with non-negative food. -/
theorem Snake.tickN_evolution (c : PositionContext) (n : Nat) :
    ∀ s : Snake, s.segments ≠ [] → 0 ≤ s.food →
      (s.tickN c n).food = max (s.food - n) 0 ∧
      (s.tickN c n).segments.length = s.segments.length + min n s.food.toNat ∧
      (s.tickN c n).segments ≠ [] := by
  induction n with
  | zero =>
    intro s hne hf
    refine ⟨by simp [Snake.tickN]; omega, by simp [Snake.tickN], hne⟩
  | succ n ih =>
    intro s hne hf
    have hstep : s.tickN c (n + 1) = (s.tick c).tickN c n := rfl
    by_cases hpos : 0 < s.food
    · obtain ⟨hl, hfd⟩ := s.tick_length_of_pos c hne hpos
      obtain ⟨h1, h2, h3⟩ := ih (s.tick c) (s.tick_segments_ne_nil c hne) (by omega)
      refine ⟨?_, ?_, by rw [hstep]; exact h3⟩
      · rw [hstep, h1, hfd]
        omega
      · rw [hstep, h2, hl, hfd]
        omega
    · obtain ⟨hl, hfd⟩ := s.tick_length_of_nonpos c hne hpos
      obtain ⟨h1, h2, h3⟩ := ih (s.tick c) (s.tick_segments_ne_nil c hne) (by omega)
      refine ⟨?_, ?_, by rw [hstep]; exact h3⟩
      · rw [hstep, h1, hfd]
        omega
      · rw [hstep, h2, hl, hfd]
        omega

/-! ## Claim C3: the growth law of `eat` -/

/-- C3: on an alive snake with no pending food, after `eat(cheese)` with
`foodValue = f > 0` each of the next `f` ticks adds exactly one segment,
every later tick keeps the count unchanged, and the count after the `f`-th
tick exceeds the original by exactly `f`. -/
theorem eat_growth (c : PositionContext) (s : Snake) (ch : Cheese) (halive : s.dead = false)
    (hne : s.segments ≠ []) (h0 : s.food = 0) (hf : 0 < ch.food) :
    ∀ i : Nat,
      (i < ch.food.toNat →
        ((s.eat ch).tickN c (i + 1)).segments.length =
          ((s.eat ch).tickN c i).segments.length + 1) ∧
      (ch.food.toNat ≤ i →
        ((s.eat ch).tickN c (i + 1)).segments.length =
          ((s.eat ch).tickN c i).segments.length) ∧
      ((s.eat ch).tickN c ch.food.toNat).segments.length =
        s.segments.length + ch.food.toNat := by
  intro i
  have hfood : (s.eat ch).food = ch.food := by simp [Snake.eat, h0]
  have hsegs : (s.eat ch).segments = s.segments := rfl
  have hne' : (s.eat ch).segments ≠ [] := by rw [hsegs]; exact hne
  have h0le : 0 ≤ (s.eat ch).food := by rw [hfood]; omega
  have Hi := Snake.tickN_evolution c i (s.eat ch) hne' h0le
  have Hi1 := Snake.tickN_evolution c (i + 1) (s.eat ch) hne' h0le
  have Hf := Snake.tickN_evolution c ch.food.toNat (s.eat ch) hne' h0le
  refine ⟨fun hlt => ?_, fun hge => ?_, ?_⟩
  · rw [Hi1.2.1, Hi.2.1, hfood]
    omega
  · rw [Hi1.2.1, Hi.2.1, hfood]
    omega
  · rw [Hf.2.1, hfood, hsegs]
    omega

/-- Witness for C3: a one-segment alive snake with empty food counter eats
a cheese of value 2; the first tick adds a segment. -/
theorem eat_growth_witness :
    (Snake.mk [⟨5, 5⟩] Direction.right none 0 false).dead = false ∧
    (Snake.mk [⟨5, 5⟩] Direction.right none 0 false).segments ≠ [] ∧
    (Snake.mk [⟨5, 5⟩] Direction.right none 0 false).food = 0 ∧
    (0 : Int) < (Cheese.mk ⟨0, 0⟩ 2).food ∧
    (0 < (Cheese.mk ⟨0, 0⟩ 2).food.toNat →
      (((Snake.mk [⟨5, 5⟩] Direction.right none 0 false).eat (Cheese.mk ⟨0, 0⟩ 2)).tickN
            ⟨⟨0, 20⟩, ⟨0, 20⟩⟩ 1).segments.length =
        (((Snake.mk [⟨5, 5⟩] Direction.right none 0 false).eat (Cheese.mk ⟨0, 0⟩ 2)).tickN
              ⟨⟨0, 20⟩, ⟨0, 20⟩⟩ 0).segments.length + 1) :=
  ⟨rfl, by simp, rfl, by decide,
    (eat_growth ⟨⟨0, 20⟩, ⟨0, 20⟩⟩ (Snake.mk [⟨5, 5⟩] Direction.right none 0 false)
        (Cheese.mk ⟨0, 0⟩ 2) rfl (by simp) rfl (by decide) 0).1⟩

/-! ## Claim C10: the segment list is never empty -/

/-- The snake-mutating calls available to the component. -/
inductive SnakeOp where
  | tick : SnakeOp
  | eat : Cheese → SnakeOp
  | kill : SnakeOp
  | setDir : Direction → SnakeOp

/-- Apply one call to the snake. -/
def applySnakeOp (c : PositionContext) (s : Snake) : SnakeOp → Snake
  | SnakeOp.tick => s.tick c
  | SnakeOp.eat ch => s.eat ch
  | SnakeOp.kill => s.kill
  | SnakeOp.setDir d => s.setDirection d

/-- Apply a sequence of calls to the snake. -/
def applySnakeOps (c : PositionContext) (s : Snake) : List SnakeOp → Snake
  | [] => s
  | op :: ops => applySnakeOps c (applySnakeOp c s op) ops

theorem applySnakeOp_segments_ne_nil (c : PositionContext) (s : Snake) (op : SnakeOp)
    (h : s.segments ≠ []) : (applySnakeOp c s op).segments ≠ [] := by
  cases op with
  | tick => exact s.tick_segments_ne_nil c h
  | eat ch => exact h
  | kill => exact h
  | setDir d => exact h

/-- C10: starting from the one-element segment list of the constructor, every
sequence of `tick`, `eat`, `kill` and direction-setter calls leaves the
segment list non-empty, so the head `segments[0]` is always defined. -/
theorem segments_never_empty (c : PositionContext) (start : Position) (f : Int)
    (d : Direction) (ops : List SnakeOp) :
    (applySnakeOps c (Snake.create start f d) ops).segments ≠ [] := by
  have key : ∀ (l : List SnakeOp) (s : Snake), s.segments ≠ [] →
      (applySnakeOps c s l).segments ≠ [] := by
    intro l
    induction l with
    | nil => exact fun s h => h
    | cons op ops ih => exact fun s h => ih _ (applySnakeOp_segments_ne_nil c s op h)
  exact key ops _ (by simp [Snake.create])

/-! ## Claim C7: `tick()` after `kill()` -/

/-- C7 counterexample: for the killed one-segment snake at `(5, 5)` with no
food, a further `tick()` in the 20×20 session context does change the state
(the head advances to `(6, 5)`), so post-death `tick()` is not a no-op. -/
theorem tick_after_kill_not_noop :
    Snake.tick (Snake.kill (Snake.create ⟨5, 5⟩ 0 Direction.right)) ⟨⟨0, 20⟩, ⟨0, 20⟩⟩ ≠
      Snake.kill (Snake.create ⟨5, 5⟩ 0 Direction.right) := by
  have h65 : Position.create ⟨⟨0, 20⟩, ⟨0, 20⟩⟩ 6 5 = ⟨6, 5⟩ :=
    Position.create_eq_self _ _ _ (by decide) (by decide) (by decide) (by decide)
  intro h
  have hsegs := congrArg Snake.segments h
  rw [show Snake.tick (Snake.kill (Snake.create ⟨5, 5⟩ 0 Direction.right)) ⟨⟨0, 20⟩, ⟨0, 20⟩⟩
      = Snake.mk [Position.create ⟨⟨0, 20⟩, ⟨0, 20⟩⟩ 6 5] Direction.right none 0 true from rfl,
    h65] at hsegs
  simp [Snake.kill, Snake.create] at hsegs

/-- C7 amended: `tick()` on a killed snake does not fault and keeps the dead
flag set, but it is not a no-op — it transforms the state exactly as an
alive tick would (`tick` and `kill` commute); the component never reaches
this case because the tick subscription ends at the death notification. -/
theorem tick_after_kill_advances (c : PositionContext) (s : Snake) :
    (s.kill).tick c = (s.tick c).kill ∧ ((s.kill).tick c).dead = true := by
  constructor
  · cases s with
    | mk segs dir nd food dead =>
      cases segs with
      | nil => rfl
      | cons hd rest =>
        by_cases hf : (0 : Int) < food
        · simp [Snake.kill, Snake.tick, hf]
        · simp [Snake.kill, Snake.tick, hf]
  · rw [Snake.tick_dead]
    rfl

/-! ## Claim C4: when the orchestration flags death -/

theorem appTickN_succ_back (s : Snake) (c : PositionContext) (n : Nat) :
    appTickN s c (n + 1) = appTick (appTickN s c n) c := by
  induction n generalizing s with
  | zero => rfl
  | succ n ih =>
    have h1 : appTickN s c (n + 1 + 1) = appTickN (appTick s c) c (n + 1) := rfl
    rw [h1, ih]
    rfl

theorem appTick_dead_eq (s : Snake) (c : PositionContext) :
    (appTick s c).dead = (s.dead || selfCollision (s.tick c)) := by
  unfold appTick
  by_cases hcol : selfCollision (s.tick c)
  · simp [hcol, Snake.kill, Snake.tick_dead]
  · simp [hcol, Snake.tick_dead]

/-- C4: the orchestration step never flags death without a collision of the
just-advanced head, and over any number of steps the snake is dead exactly
when some earlier step produced a state whose head coincides with a
non-head segment — not before, not after. -/
theorem appTick_death_timing (c : PositionContext) (s : Snake) (halive : s.dead = false)
    (n : Nat) :
    (selfCollision (s.tick c) = false → (appTick s c).dead = s.dead) ∧
    ((appTickN s c n).dead = true ↔
      ∃ k, k < n ∧ selfCollision ((appTickN s c k).tick c) = true) := by
  constructor
  · intro hno
    rw [appTick_dead_eq, hno]
    simp
  · induction n with
    | zero => simp [appTickN, halive]
    | succ n ih =>
      rw [appTickN_succ_back, appTick_dead_eq, Bool.or_eq_true]
      constructor
      · rintro (hd | hcol)
        · obtain ⟨k, hk, hc⟩ := ih.mp hd
          exact ⟨k, by omega, hc⟩
        · exact ⟨n, by omega, hcol⟩
      · rintro ⟨k, hk, hc⟩
        rcases Nat.lt_succ_iff_lt_or_eq.mp hk with h' | rfl
        · exact Or.inl (ih.mpr ⟨k, h', hc⟩)
        · exact Or.inr hc

/-- Witness for C4: the alive one-segment snake at `(5, 5)` over one
orchestration step in the session context. -/
theorem appTick_death_timing_witness :
    (Snake.mk [⟨5, 5⟩] Direction.right none 0 false).dead = false ∧
    ((selfCollision (Snake.tick (Snake.mk [⟨5, 5⟩] Direction.right none 0 false)
          ⟨⟨0, 20⟩, ⟨0, 20⟩⟩) = false →
        (appTick (Snake.mk [⟨5, 5⟩] Direction.right none 0 false) ⟨⟨0, 20⟩, ⟨0, 20⟩⟩).dead =
          (Snake.mk [⟨5, 5⟩] Direction.right none 0 false).dead) ∧
      ((appTickN (Snake.mk [⟨5, 5⟩] Direction.right none 0 false) ⟨⟨0, 20⟩, ⟨0, 20⟩⟩ 1).dead
          = true ↔
        ∃ k, k < 1 ∧ selfCollision
          ((appTickN (Snake.mk [⟨5, 5⟩] Direction.right none 0 false)
              ⟨⟨0, 20⟩, ⟨0, 20⟩⟩ k).tick ⟨⟨0, 20⟩, ⟨0, 20⟩⟩) = true)) :=
  ⟨rfl, appTick_death_timing ⟨⟨0, 20⟩, ⟨0, 20⟩⟩
    (Snake.mk [⟨5, 5⟩] Direction.right none 0 false) rfl 1⟩

/-! ## Claim C9: the configured session scenario -/

/-- The logical domain configured in `ngAfterViewInit`: 20×20 cells. -/
def sessionContext : PositionContext := ⟨⟨0, 20⟩, ⟨0, 20⟩⟩

/-- Source `initGame`: `const start = new Position(5, 5, this._positionContext)`. -/
def sessionStart : Position := Position.create sessionContext 5 5

/-- Source `initGame`: `this._snake = new Snake(start, 4, this._directions.right)` —
the `4` is the initial food, and the constructor starts from the single
segment `[start]`. -/
def sessionSnake : Snake := Snake.create sessionStart 4 Direction.right

theorem sessionTick1 : sessionSnake.tickN sessionContext 1 =
    ⟨[⟨6, 5⟩, ⟨5, 5⟩], Direction.right, none, 3, false⟩ := by
  simp [sessionSnake, sessionStart, sessionContext, Snake.create, Snake.tickN, Snake.tick,
    Direction.applyTo, Position.createModified, Position.create, PositionContext.applyDomain,
    applyDomainVector, AxisDomain.width, domainLoopLow, domainLoopHigh, Direction.right]

theorem sessionTick5 : sessionSnake.tickN sessionContext 5 =
    ⟨[⟨10, 5⟩, ⟨9, 5⟩, ⟨8, 5⟩, ⟨7, 5⟩, ⟨6, 5⟩], Direction.right, none, 0, false⟩ := by
  simp [sessionSnake, sessionStart, sessionContext, Snake.create, Snake.tickN, Snake.tick,
    Direction.applyTo, Position.createModified, Position.create, PositionContext.applyDomain,
    applyDomainVector, AxisDomain.width, domainLoopLow, domainLoopHigh, Direction.right]

theorem sessionTick6 : sessionSnake.tickN sessionContext 6 =
    ⟨[⟨11, 5⟩, ⟨10, 5⟩, ⟨9, 5⟩, ⟨8, 5⟩, ⟨7, 5⟩], Direction.right, none, 0, false⟩ := by
  simp [sessionSnake, sessionStart, sessionContext, Snake.create, Snake.tickN, Snake.tick,
    Direction.applyTo, Position.createModified, Position.create, PositionContext.applyDomain,
    applyDomainVector, AxisDomain.width, domainLoopLow, domainLoopHigh, Direction.right]

/-- C9 counterexample: after one tick the session snake has 2 segments, not
the 5 the claim states — `initGame` passes 4 as the initial food value, not
as an initial length; the constructor starts from one segment. -/
theorem session_scenario_counterexample :
    (sessionSnake.tickN sessionContext 1).segments.length = 2 ∧
    ¬ (sessionSnake.tickN sessionContext 1).segments.length = 5 := by
  rw [sessionTick1]
  simp

/-- C9 amended: in the 20×20 session with the snake constructed at `(5, 5)`
with one segment, direction right and initial food 4: after one tick the
head is `(6, 5)`, the segment count is 2 and the food counter is 3; after 4
more ticks the count stabilizes at 5 (1 initial + 4 food) with the head at
`(10, 5)`, and a further tick keeps the count at 5. -/
theorem session_scenario :
    (sessionSnake.tickN sessionContext 1).segments.head? = some ⟨6, 5⟩ ∧
    (sessionSnake.tickN sessionContext 1).segments.length = 2 ∧
    (sessionSnake.tickN sessionContext 1).food = 3 ∧
    (sessionSnake.tickN sessionContext 5).segments.length = 5 ∧
    (sessionSnake.tickN sessionContext 5).segments.head? = some ⟨10, 5⟩ ∧
    (sessionSnake.tickN sessionContext 6).segments.length = 5 := by
  rw [sessionTick1, sessionTick5, sessionTick6]
  simp

/-! ## The cell enumeration (claims C5 and C8) -/

/-- The cells occupied by the snake, as raw coordinate pairs. -/
def occupiedCells (s : Snake) : List (Int × Int) :=
  s.segments.map (fun p => (p.x, p.y))

/-- The total number of grid cells: the product of the two domain widths. -/
def totalCells (c : PositionContext) : Nat :=
  (c.x.hi - c.x.lo).toNat * (c.y.hi - c.y.lo).toNat

theorem intRange_nodup (lo hi : Int) : (intRange lo hi).Nodup :=
  (List.nodup_range _).map (fun a b h => by omega)

theorem mem_intRange (lo hi v : Int) : v ∈ intRange lo hi ↔ lo ≤ v ∧ v < hi := by
  unfold intRange
  simp only [List.mem_map, List.mem_range]
  constructor
  · rintro ⟨i, hi', rfl⟩
    omega
  · intro h
    exact ⟨(v - lo).toNat, by omega, by omega⟩

theorem intRange_length (lo hi : Int) : (intRange lo hi).length = (hi - lo).toNat := by
  simp [intRange]

theorem allCells_eq_product (c : PositionContext) :
    allCells c = intRange c.x.lo c.x.hi ×ˢ intRange c.y.lo c.y.hi := rfl

theorem allCells_nodup (c : PositionContext) : (allCells c).Nodup := by
  rw [allCells_eq_product]
  exact (intRange_nodup _ _).product (intRange_nodup _ _)

theorem allCells_length (c : PositionContext) : (allCells c).length = totalCells c := by
  rw [allCells_eq_product, List.length_product, intRange_length, intRange_length]
  rfl

theorem mem_allCells (c : PositionContext) (pr : Int × Int) :
    pr ∈ allCells c ↔
      (c.x.lo ≤ pr.1 ∧ pr.1 < c.x.hi) ∧ (c.y.lo ≤ pr.2 ∧ pr.2 < c.y.hi) := by
  rw [allCells_eq_product]
  cases pr with
  | mk a b => simp [List.mem_product, mem_intRange]

/-- With fewer occupied cells than grid cells, the candidate list of
`generatePosition` is non-empty. -/
theorem possibleCells_ne_nil (c : PositionContext) (s : Snake)
    (hk : (occupiedCells s).dedup.length < totalCells c) : possibleCells c s ≠ [] := by
  intro hempty
  have hsub : ∀ pr ∈ allCells c, pr ∈ occupiedCells s := by
    intro pr hpr
    by_contra hnot
    have hmem : pr ∈ possibleCells c s := by
      unfold possibleCells
      rw [List.mem_filter]
      refine ⟨hpr, ?_⟩
      rw [List.all_eq_true]
      intro seg hseg
      have hne : (seg.x, seg.y) ≠ pr := by
        intro hcontra
        exact hnot (by unfold occupiedCells; rw [List.mem_map]; exact ⟨seg, hseg, hcontra⟩)
      cases pr with
      | mk a b =>
        simp [Position.equalsPair]
        rcases eq_or_ne a seg.x with h1 | h1
        · refine Or.inr fun h2 => hne ?_
          rw [h1, h2]
        · exact Or.inl h1
    rw [hempty] at hmem
    exact absurd hmem (List.not_mem_nil _)
  have h1 : (allCells c).toFinset ⊆ (occupiedCells s).toFinset := by
    intro pr hpr
    rw [List.mem_toFinset] at hpr ⊢
    exact hsub pr hpr
  have h2 := Finset.card_le_card h1
  rw [List.card_toFinset, List.card_toFinset, List.Nodup.dedup (allCells_nodup c),
    allCells_length] at h2
  omega

/-- C5: whenever the snake occupies fewer cells than the grid has, every
index the random source can produce into the candidate list yields a cheese
whose position coincides with no snake segment (and such an index always
exists, the candidate list being non-empty). -/
theorem createCheese_avoids_snake (c : PositionContext) (s : Snake) (choice : Nat)
    (fr : Int × Int) (fd : Int)
    (hk : (occupiedCells s).dedup.length < totalCells c)
    (hchoice : choice < (possibleCells c s).length) :
    0 < (possibleCells c s).length ∧
    ∃ ch : Cheese, CheeseFactory.createCheese c fr s choice fd = some ch ∧
      ∀ seg ∈ s.segments, ¬ (ch.position.x = seg.x ∧ ch.position.y = seg.y) := by
  have hne := possibleCells_ne_nil c s hk
  refine ⟨List.length_pos.mpr hne, ?_⟩
  have hget : (possibleCells c s).get? choice =
      some ((possibleCells c s).get ⟨choice, hchoice⟩) := List.get?_eq_get hchoice
  set cand := (possibleCells c s).get ⟨choice, hchoice⟩ with hcand
  have hcand_mem : cand ∈ possibleCells c s := List.get_mem _ _ hchoice
  have hcells := List.mem_filter.mp hcand_mem
  have hin := (mem_allCells c cand).mp hcells.1
  have hcreate : Position.create c cand.1 cand.2 = ⟨cand.1, cand.2⟩ :=
    Position.create_eq_self c _ _ hin.1.1 hin.1.2 hin.2.1 hin.2.2
  refine ⟨⟨⟨cand.1, cand.2⟩, fr.1 + fd⟩, ?_, ?_⟩
  · unfold CheeseFactory.createCheese CheeseFactory.generatePosition
    rw [hget]
    simp [hcreate]
  · intro seg hseg heq
    have hall := (List.all_eq_true.mp hcells.2) seg hseg
    simp [Position.equalsPair] at hall
    cases hall with
    | inl h => exact h heq.1
    | inr h => exact h heq.2

/-- Witness for C5: the 2×2 grid with a one-segment snake at `(0, 0)` and
the draw `choice = 0`. -/
theorem createCheese_avoids_snake_witness :
    (occupiedCells (Snake.mk [⟨0, 0⟩] Direction.right none 0 false)).dedup.length <
      totalCells ⟨⟨0, 2⟩, ⟨0, 2⟩⟩ ∧
    0 < (possibleCells ⟨⟨0, 2⟩, ⟨0, 2⟩⟩ (Snake.mk [⟨0, 0⟩] Direction.right none 0 false)).length ∧
    (0 < (possibleCells ⟨⟨0, 2⟩, ⟨0, 2⟩⟩
        (Snake.mk [⟨0, 0⟩] Direction.right none 0 false)).length ∧
      ∃ ch : Cheese,
        CheeseFactory.createCheese ⟨⟨0, 2⟩, ⟨0, 2⟩⟩ (1, 15)
          (Snake.mk [⟨0, 0⟩] Direction.right none 0 false) 0 7 = some ch ∧
        ∀ seg ∈ (Snake.mk [⟨0, 0⟩] Direction.right none 0 false).segments,
          ¬ (ch.position.x = seg.x ∧ ch.position.y = seg.y)) :=
  ⟨by decide, by decide,
    createCheese_avoids_snake ⟨⟨0, 2⟩, ⟨0, 2⟩⟩
      (Snake.mk [⟨0, 0⟩] Direction.right none 0 false) 0 (1, 15) 7 (by decide) (by decide)⟩

/-- C8: when the snake occupies every grid cell (here: a 1×1 grid fully
occupied), the candidate list is empty and `generatePosition` reads
`possible[0]` out of bounds — the embedded outcome is `none`, standing for
the `undefined` read and the `TypeError` thrown by `new Position(...)`;
there is no distinguished "no space" result in the code. -/
theorem createCheese_full_grid_crash :
    possibleCells ⟨⟨0, 1⟩, ⟨0, 1⟩⟩ (Snake.mk [⟨0, 0⟩] Direction.right none 0 false) = [] ∧
    CheeseFactory.createCheese ⟨⟨0, 1⟩, ⟨0, 1⟩⟩ (1, 15)
      (Snake.mk [⟨0, 0⟩] Direction.right none 0 false) 0 0 = none := by
  decide

end Snake2Proof
